import Mathlib

/-!
Verification of the per-particle MPM snow material update (`SnowSim/Particle.cpp`).

The particle code relies on an external small-matrix library (`Vector2f`,
`Matrix2f`), on compile-time material constants, on the C library exponential
and on a 2x2 SVD primitive; none of those are part of this core, so they are
modelled here from the specification (matrices are row-major arrays of exact
rationals standing for floats, the SVD is an external function whose output is
constrained by hypotheses where a claim needs its contract).
-/

namespace Snow

/-- Modelled from the spec: a 2D vector of the external math library
(float components modelled as exact rationals). -/
structure Vector2f where
  x : ℚ
  y : ℚ
deriving DecidableEq

/-- Modelled from the spec: a 2x2 matrix of the external math library,
row-major (`mij` is the entry in row `i`, column `j`). -/
structure Matrix2f where
  m00 : ℚ
  m01 : ℚ
  m10 : ℚ
  m11 : ℚ
deriving DecidableEq

instance : Zero Vector2f := ⟨⟨0, 0⟩⟩

instance : Add Vector2f := ⟨fun a b => ⟨a.x + b.x, a.y + b.y⟩⟩

instance : SMul ℚ Vector2f := ⟨fun c v => ⟨c * v.x, c * v.y⟩⟩

instance : Zero Matrix2f := ⟨⟨0, 0, 0, 0⟩⟩

/-- Modelled from the spec: `loadIdentity` result, the identity matrix. -/
instance : One Matrix2f := ⟨⟨1, 0, 0, 1⟩⟩

instance : Add Matrix2f := ⟨fun a b => ⟨a.m00 + b.m00, a.m01 + b.m01, a.m10 + b.m10, a.m11 + b.m11⟩⟩

instance : Sub Matrix2f := ⟨fun a b => ⟨a.m00 - b.m00, a.m01 - b.m01, a.m10 - b.m10, a.m11 - b.m11⟩⟩

instance : SMul ℚ Matrix2f := ⟨fun c a => ⟨c * a.m00, c * a.m01, c * a.m10, c * a.m11⟩⟩

/-- Modelled from the spec: matrix product. -/
instance : Mul Matrix2f :=
  ⟨fun a b =>
    ⟨a.m00 * b.m00 + a.m01 * b.m10, a.m00 * b.m01 + a.m01 * b.m11,
     a.m10 * b.m00 + a.m11 * b.m10, a.m10 * b.m01 + a.m11 * b.m11⟩⟩

/-- Modelled from the spec: matrix transpose. -/
def Matrix2f.transpose (a : Matrix2f) : Matrix2f := ⟨a.m00, a.m10, a.m01, a.m11⟩

/-- Modelled from the spec: determinant of a 2x2 matrix. -/
def Matrix2f.determinant (a : Matrix2f) : ℚ := a.m00 * a.m11 - a.m01 * a.m10

/-- Modelled from the spec: the 2x2 cofactor matrix (the matrix of signed
minors, equal to `det(A) * A^-T` for invertible `A`). -/
def Matrix2f.cofactor (a : Matrix2f) : Matrix2f := ⟨a.m11, -a.m10, -a.m01, a.m00⟩

/-- Modelled from the spec: `diag_sum s` adds `s` to both diagonal entries. -/
def Matrix2f.diag_sum (a : Matrix2f) (s : ℚ) : Matrix2f := ⟨a.m00 + s, a.m01, a.m10, a.m11 + s⟩

/-- Modelled from the spec: `diag_product e` multiplies on the right by
`diag(e.x, e.y)` (so `V.diag_product e * V.transpose = V * diag(e) * V^T`,
the polar-stretch construction of the spec). -/
def Matrix2f.diag_product (a : Matrix2f) (e : Vector2f) : Matrix2f :=
  ⟨a.m00 * e.x, a.m01 * e.y, a.m10 * e.x, a.m11 * e.y⟩

/-- Modelled from the spec: `diag_product_inv e` multiplies on the right by
`diag(1/e.x, 1/e.y)`. -/
def Matrix2f.diag_product_inv (a : Matrix2f) (e : Vector2f) : Matrix2f :=
  ⟨a.m00 / e.x, a.m01 / e.y, a.m10 / e.x, a.m11 / e.y⟩

/-- Modelled from the spec: Frobenius inner product (sum of entrywise
products). -/
def Matrix2f.frobeniusInnerProduct (a b : Matrix2f) : ℚ :=
  a.m00 * b.m00 + a.m01 * b.m01 + a.m10 * b.m10 + a.m11 * b.m11

/-- Modelled from the spec: matrix-vector product. -/
def Matrix2f.mulVec (a : Matrix2f) (v : Vector2f) : Vector2f :=
  ⟨a.m00 * v.x + a.m01 * v.y, a.m10 * v.x + a.m11 * v.y⟩

/-- Modelled from the spec: `u.dyadic_product w` is the outer product
`u * w^T`. -/
def Vector2f.dyadic_product (u w : Vector2f) : Matrix2f :=
  ⟨u.x * w.x, u.x * w.y, u.y * w.x, u.y * w.y⟩

/-- Modelled from the spec: the compile-time configuration constants
(`TIMESTEP`, `CRIT_COMPRESS`, `CRIT_STRETCH`, `HARDENING`, `MATRIX_EPSILON`)
consumed from external configuration, together with the C library
exponential `expf` (an external primitive; when a claim needs it, its
monotonicity is a hypothesis). -/
structure Config where
  TIMESTEP : ℚ
  CRIT_COMPRESS : ℚ
  CRIT_STRETCH : ℚ
  HARDENING : ℚ
  MATRIX_EPSILON : ℚ
  expf : ℚ → ℚ

/-- Modelled from the spec: the `(W, Σ, V)` triple returned by the external
2x2 SVD primitive `Matrix2f::svd`. -/
structure SVDResult where
  w : Matrix2f
  e : Vector2f
  v : Matrix2f

/-- The per-particle state (fields of class `Particle`). -/
structure Particle where
  position : Vector2f
  velocity : Vector2f
  mass : ℚ
  volume : ℚ
  lambda_s : ℚ
  mu_s : ℚ
  lambda : ℚ
  mu : ℚ
  def_elastic : Matrix2f
  def_plastic : Matrix2f
  det_elastic : ℚ
  det_plastic : ℚ
  velocity_gradient : Matrix2f
  svd_w : Matrix2f
  svd_e : Vector2f
  svd_v : Matrix2f
  polar_r : Matrix2f
  polar_s : Matrix2f
deriving DecidableEq


/-- `Particle::Particle(pos, vel, mass, lame_lambda, lame_mu)`. The C++
constructor leaves `volume`, `mu`, `lambda` and `velocity_gradient`
uninitialized (they are set later by the grid / `updateGradient`); those
indeterminate initial contents are taken as arbitrary parameters. -/
def Particle.init (pos vel : Vector2f) (mass lame_lambda lame_mu : ℚ)
    (volume0 mu0 lambda0 : ℚ) (vg0 : Matrix2f) : Particle :=
  { position := pos
    velocity := vel
    mass := mass
    volume := volume0
    lambda_s := lame_lambda
    mu_s := lame_mu
    lambda := lambda0
    mu := mu0
    def_elastic := 1
    def_plastic := 1
    det_elastic := 1
    det_plastic := 1
    velocity_gradient := vg0
    svd_w := 1
    svd_e := ⟨1, 1⟩
    svd_v := 1
    polar_r := 1
    polar_s := 1 }

/-- `Particle::updatePos`: explicit Euler step of the position. -/
def Particle.updatePos (cfg : Config) (p : Particle) : Particle :=
  { p with position := p.position + cfg.TIMESTEP • p.velocity }

/-- The singular-value clamp of `Particle::updateGradient` (lines 41-46):
values below `CRIT_COMPRESS` are raised to it, values above `CRIT_STRETCH`
are lowered to it. -/
def clamp1 (cfg : Config) (s : ℚ) : ℚ :=
  if s < cfg.CRIT_COMPRESS then cfg.CRIT_COMPRESS
  else if s > cfg.CRIT_STRETCH then cfg.CRIT_STRETCH
  else s

/-- Componentwise clamp of the singular-value vector `svd_e`. -/
def clampE (cfg : Config) (e : Vector2f) : Vector2f := ⟨clamp1 cfg e.x, clamp1 cfg e.y⟩

/-- Lines 30-31 of `Particle::updateGradient`: the velocity gradient turned
into the incremental deformation operator `TIMESTEP * velocity_gradient + I`
(the field is mutated in place by the C++ code). -/
def tentativeVG (cfg : Config) (p : Particle) : Matrix2f :=
  (cfg.TIMESTEP • p.velocity_gradient).diag_sum 1

/-- Line 32: the tentative (all-elastic) updated elastic gradient. -/
def tentativeElastic (cfg : Config) (p : Particle) : Matrix2f :=
  tentativeVG cfg p * p.def_elastic

/-- Line 33: `f_all`, the total deformation gradient computed during
`updateGradient` (tentative elastic gradient times the old plastic one). -/
def fAll (cfg : Config) (p : Particle) : Matrix2f :=
  tentativeElastic cfg p * p.def_plastic

/-- `Particle::updateGradient`, parameterized by the external SVD primitive
`svd` (called on the tentative elastic gradient, line 38): clamps the
singular values, rebuilds the polar decomposition `polar_r`/`polar_s` from
the clamped SVD, reconstructs `def_elastic`/`def_plastic` so their product
is `f_all`, recomputes the cached determinants and the hardened Lame
parameters. -/
def Particle.updateGradient (cfg : Config) (svd : Matrix2f → SVDResult) (p : Particle) : Particle :=
  let de := tentativeElastic cfg p
  let f_all := fAll cfg p
  let r := svd de
  let svd_v_trans := r.v.transpose
  let e := clampE cfg r.e
  let pr := r.w * svd_v_trans
  let ps := r.v.diag_product e * svd_v_trans
  let v_cpy := r.v.diag_product_inv e
  let w_cpy := r.w.diag_product e
  let dp := v_cpy * r.w.transpose * f_all
  let de2 := w_cpy * svd_v_trans
  let detE := de2.determinant
  let detP := dp.determinant
  let scale := cfg.expf (cfg.HARDENING * (1 - detP))
  { p with
    velocity_gradient := tentativeVG cfg p
    def_elastic := de2
    def_plastic := dp
    svd_w := r.w
    svd_e := e
    svd_v := r.v
    polar_r := pr
    polar_s := ps
    det_elastic := detE
    det_plastic := detP
    mu := p.mu_s * scale
    lambda := p.lambda_s * scale }

/-- `Particle::cauchyStress` (lines 84-88): the volume-scaled co-rotational
stress `2*mu*(Fe - Re)*Fe^T` with the volumetric term
`lambda*det_elastic*(det_elastic - 1)` added to the diagonal. -/
def Particle.cauchyStress (p : Particle) : Matrix2f :=
  let temp := (2 * p.mu) • (p.def_elastic - p.polar_r)
  let temp2 := (temp * p.def_elastic.transpose).diag_sum
    (p.lambda * p.det_elastic * (p.det_elastic - 1))
  p.volume • temp2

/-- Line 96 of `Particle::deltaForce`: the directional derivative
`del_elastic = TIMESTEP * u.dyadic_product(weight_grad) * def_elastic`. -/
def delElastic (cfg : Config) (p : Particle) (u weight_grad : Vector2f) : Matrix2f :=
  (cfg.TIMESTEP • u.dyadic_product weight_grad) * p.def_elastic

/-- The body of `Particle::deltaForce` after the early-out (lines 103-148):
rotation differential from the skew generator `y` and `x = y / tr(polar_s)`,
cofactor-based volumetric differential, assembled into
`volume * (Ap * (def_elastic^T * weight_grad))`. -/
def Particle.deltaForceCore (cfg : Config) (p : Particle) (u weight_grad : Vector2f) : Vector2f :=
  let del_elastic := delElastic cfg p u weight_grad
  let y := (p.polar_r.m00 * del_elastic.m10 + p.polar_r.m10 * del_elastic.m11) -
           (p.polar_r.m01 * del_elastic.m00 + p.polar_r.m11 * del_elastic.m01)
  let x := y / (p.polar_s.m00 + p.polar_s.m11)
  let del_rotate : Matrix2f :=
    ⟨-p.polar_r.m10 * x, p.polar_r.m00 * x, -p.polar_r.m11 * x, p.polar_r.m01 * x⟩
  let cofactor := p.def_elastic.cofactor
  let del_cofactor := del_elastic.cofactor
  let Ap := (2 * p.mu) • (del_elastic - del_rotate)
  let cof1 := cofactor.frobeniusInnerProduct del_elastic • cofactor
  let cof2 := (p.det_elastic - 1) • del_cofactor
  let assembled := Ap + p.lambda • (cof1 + cof2)
  p.volume • assembled.mulVec (p.def_elastic.transpose.mulVec weight_grad)

/-- `Particle::deltaForce` (lines 90-148): returns the zero vector when all
four entries of `del_elastic` compare `<` against `MATRIX_EPSILON` (raw
signed comparison, lines 99-101), otherwise the assembled force
differential. -/
def Particle.deltaForce (cfg : Config) (p : Particle) (u weight_grad : Vector2f) : Vector2f :=
  let del_elastic := delElastic cfg p u weight_grad
  if del_elastic.m00 < cfg.MATRIX_EPSILON ∧ del_elastic.m01 < cfg.MATRIX_EPSILON ∧
     del_elastic.m10 < cfg.MATRIX_EPSILON ∧ del_elastic.m11 < cfg.MATRIX_EPSILON then
    (⟨0, 0⟩ : Vector2f)
  else
    p.deltaForceCore cfg u weight_grad

/-- `cauchyStress` as a state transformer: the C++ body only reads fields
(no assignment to any member), so the particle component is unchanged. -/
def Particle.cauchyStressS (p : Particle) : Matrix2f × Particle := (p.cauchyStress, p)

/-- `deltaForce` as a state transformer: the C++ body only reads fields
(all writes are to locals), so the particle component is unchanged. -/
def Particle.deltaForceS (cfg : Config) (p : Particle) (u weight_grad : Vector2f) :
    Vector2f × Particle := (p.deltaForce cfg u weight_grad, p)

/-- Diagonal matrix `diag(e.x, e.y)`, used to reason about `diag_product` and
`diag_product_inv` as right-multiplications. -/
def diagM (e : Vector2f) : Matrix2f := ⟨e.x, 0, 0, e.y⟩

/-- A trivial model of the external SVD primitive, returning the identity
factorization; a valid SVD whenever its argument is the identity matrix. -/
def svdId : Matrix2f → SVDResult := fun _ => ⟨1, ⟨1, 1⟩, 1⟩

/-- A concrete configuration used to instantiate theorems on sample data. -/
def cfgX : Config :=
  { TIMESTEP := 1, CRIT_COMPRESS := 1/2, CRIT_STRETCH := 2, HARDENING := 1,
    MATRIX_EPSILON := 1, expf := id }

/-- A concrete particle state (identity deformation, unit material data). -/
def pX : Particle :=
  { position := 0, velocity := 0, mass := 1, volume := 1, lambda_s := 1,
    mu_s := 1, lambda := 1, mu := 1, def_elastic := 1, def_plastic := 1,
    det_elastic := 1, det_plastic := 1, velocity_gradient := 0, svd_w := 1,
    svd_e := ⟨1, 1⟩, svd_v := 1, polar_r := 1, polar_s := 1 }

/-- `pX` with a compacted plastic gradient (plastic determinant 1/2). -/
def pY : Particle := { pX with def_plastic := ⟨1, 0, 0, 1/2⟩ }

/-- `pX` with a stretched elastic gradient and consistent cached
determinant. -/
def pW : Particle :=
  { pX with
    def_elastic := ⟨2, 0, 0, 3⟩
    det_elastic := 6
    mu := 5
    lambda := 7
    volume := 2 }

theorem Vector2f.vext {a b : Vector2f} (hx : a.x = b.x) (hy : a.y = b.y) : a = b := by
  cases a; cases b; simp_all

theorem Matrix2f.ext2 {a b : Matrix2f} (h00 : a.m00 = b.m00) (h01 : a.m01 = b.m01)
    (h10 : a.m10 = b.m10) (h11 : a.m11 = b.m11) : a = b := by
  cases a; cases b; simp_all

@[simp] theorem Matrix2f.mul_def (a b : Matrix2f) :
    a * b = ⟨a.m00 * b.m00 + a.m01 * b.m10, a.m00 * b.m01 + a.m01 * b.m11,
             a.m10 * b.m00 + a.m11 * b.m10, a.m10 * b.m01 + a.m11 * b.m11⟩ := rfl

@[simp] theorem Matrix2f.add_def (a b : Matrix2f) :
    a + b = ⟨a.m00 + b.m00, a.m01 + b.m01, a.m10 + b.m10, a.m11 + b.m11⟩ := rfl

@[simp] theorem Matrix2f.sub_def (a b : Matrix2f) :
    a - b = ⟨a.m00 - b.m00, a.m01 - b.m01, a.m10 - b.m10, a.m11 - b.m11⟩ := rfl

@[simp] theorem Matrix2f.smul_def (c : ℚ) (a : Matrix2f) :
    c • a = ⟨c * a.m00, c * a.m01, c * a.m10, c * a.m11⟩ := rfl

@[simp] theorem Matrix2f.one_def : (1 : Matrix2f) = ⟨1, 0, 0, 1⟩ := rfl

@[simp] theorem Matrix2f.zero_def : (0 : Matrix2f) = ⟨0, 0, 0, 0⟩ := rfl

@[simp] theorem Vector2f.vadd_def (a b : Vector2f) : a + b = ⟨a.x + b.x, a.y + b.y⟩ := rfl

@[simp] theorem Vector2f.vsmul_def (c : ℚ) (v : Vector2f) : c • v = ⟨c * v.x, c * v.y⟩ := rfl

@[simp] theorem Vector2f.vzero_def : (0 : Vector2f) = ⟨0, 0⟩ := rfl

@[simp] theorem Matrix2f.m00_one : Matrix2f.m00 1 = 1 := rfl

@[simp] theorem Matrix2f.m01_one : Matrix2f.m01 1 = 0 := rfl

@[simp] theorem Matrix2f.m10_one : Matrix2f.m10 1 = 0 := rfl

@[simp] theorem Matrix2f.m11_one : Matrix2f.m11 1 = 1 := rfl

theorem Matrix2f.mul_assoc2 (a b c : Matrix2f) : a * b * c = a * (b * c) := by
  apply Matrix2f.ext2 <;> simp <;> ring

theorem Matrix2f.one_mul2 (a : Matrix2f) : 1 * a = a := by
  apply Matrix2f.ext2 <;> simp

theorem Matrix2f.dp_eq (a : Matrix2f) (e : Vector2f) : a.diag_product e = a * diagM e := by
  apply Matrix2f.ext2 <;> simp [Matrix2f.diag_product, diagM]

theorem Matrix2f.dpi_eq (a : Matrix2f) (e : Vector2f) :
    a.diag_product_inv e = a * diagM ⟨e.x⁻¹, e.y⁻¹⟩ := by
  apply Matrix2f.ext2 <;> simp [Matrix2f.diag_product_inv, diagM, division_def]

theorem diagM_cancel (e : Vector2f) (hx : e.x ≠ 0) (hy : e.y ≠ 0) :
    diagM e * diagM ⟨e.x⁻¹, e.y⁻¹⟩ = 1 := by
  apply Matrix2f.ext2 <;> simp [diagM]
  · exact mul_inv_cancel₀ hx
  · exact mul_inv_cancel₀ hy

/-- The reconstruction algebra of `updateGradient`: with orthogonal SVD
factors and nonzero clamped singular values, the reconstructed elastic and
plastic gradients multiply back to the retained total deformation. -/
theorem reconstruct_sandwich (W V F : Matrix2f) (e : Vector2f)
    (hv : V.transpose * V = 1) (hw : W * W.transpose = 1)
    (hx : e.x ≠ 0) (hy : e.y ≠ 0) :
    W.diag_product e * V.transpose * (V.diag_product_inv e * W.transpose * F) = F := by
  simp only [Matrix2f.dp_eq, Matrix2f.dpi_eq, Matrix2f.mul_assoc2]
  rw [← Matrix2f.mul_assoc2 V.transpose V, hv, Matrix2f.one_mul2]
  rw [← Matrix2f.mul_assoc2 (diagM e) (diagM ⟨e.x⁻¹, e.y⁻¹⟩), diagM_cancel e hx hy,
    Matrix2f.one_mul2]
  rw [← Matrix2f.mul_assoc2 W W.transpose, hw, Matrix2f.one_mul2]

/-- Claim C6: after every `updateGradient` call the cached scalars satisfy
`det_elastic = determinant(def_elastic)` and
`det_plastic = determinant(def_plastic)` for the reconstructed matrices, for
all input velocity gradients. -/
theorem updateGradient_det_consistency (cfg : Config) (svd : Matrix2f → SVDResult) (p : Particle) :
    (p.updateGradient cfg svd).det_elastic = (p.updateGradient cfg svd).def_elastic.determinant ∧
    (p.updateGradient cfg svd).det_plastic = (p.updateGradient cfg svd).def_plastic.determinant :=
  ⟨rfl, rfl⟩

/-- Claim C9: `cauchyStress` and `deltaForce` leave every field of the
particle unchanged, and repeated calls with the same state and arguments
return the same result (read-only, side-effect-free, deterministic). -/
theorem stress_and_deltaForce_pure (cfg : Config) (p : Particle) (u w : Vector2f) :
    p.cauchyStressS.2 = p ∧ (p.deltaForceS cfg u w).2 = p ∧
    (p.cauchyStressS.2.cauchyStressS).1 = p.cauchyStressS.1 ∧
    ((p.deltaForceS cfg u w).2.deltaForceS cfg u w).1 = (p.deltaForceS cfg u w).1 :=
  ⟨rfl, rfl, rfl, rfl⟩

/-- Claim C8: for a freshly constructed particle (identity deformation
gradients and polar rotation, unit elastic determinant), `cauchyStress`
returns the zero matrix for every value of mass, volume, the Lame
parameters and the indeterminate uninitialized fields. -/
theorem init_cauchyStress_zero (pos vel : Vector2f)
    (mass ll lm volume0 mu0 lambda0 : ℚ) (vg0 : Matrix2f) :
    (Particle.init pos vel mass ll lm volume0 mu0 lambda0 vg0).cauchyStress = 0 := by
  apply Matrix2f.ext2 <;>
    simp only [Particle.cauchyStress, Particle.init, Matrix2f.diag_sum, Matrix2f.transpose,
      Matrix2f.mul_def, Matrix2f.sub_def, Matrix2f.smul_def, Matrix2f.add_def,
      Matrix2f.one_def, Matrix2f.zero_def] <;>
    ring

/-- Claim C4: if every one of the four entries of
`del_elastic = TIMESTEP * outer(u, weight_grad) * def_elastic` compares `<`
(raw signed comparison, not absolute value) against `MATRIX_EPSILON`, then
`deltaForce` returns exactly the zero vector; the branch is also taken for
large-magnitude negative entries. -/
theorem deltaForce_early_out (cfg : Config) (p : Particle) (u w : Vector2f)
    (h00 : (delElastic cfg p u w).m00 < cfg.MATRIX_EPSILON)
    (h01 : (delElastic cfg p u w).m01 < cfg.MATRIX_EPSILON)
    (h10 : (delElastic cfg p u w).m10 < cfg.MATRIX_EPSILON)
    (h11 : (delElastic cfg p u w).m11 < cfg.MATRIX_EPSILON) :
    p.deltaForce cfg u w = (⟨0, 0⟩ : Vector2f) := by
  simp only [Particle.deltaForce]
  rw [if_pos ⟨h00, h01, h10, h11⟩]

/-- Witness for C4 at a concrete input whose `del_elastic` entries are all
large-magnitude negative. -/
theorem deltaForce_early_out_witness :
    ((delElastic cfgX pX ⟨-100, -100⟩ ⟨1, 1⟩).m00 < cfgX.MATRIX_EPSILON ∧
     (delElastic cfgX pX ⟨-100, -100⟩ ⟨1, 1⟩).m01 < cfgX.MATRIX_EPSILON ∧
     (delElastic cfgX pX ⟨-100, -100⟩ ⟨1, 1⟩).m10 < cfgX.MATRIX_EPSILON ∧
     (delElastic cfgX pX ⟨-100, -100⟩ ⟨1, 1⟩).m11 < cfgX.MATRIX_EPSILON) ∧
    pX.deltaForce cfgX ⟨-100, -100⟩ ⟨1, 1⟩ = (⟨0, 0⟩ : Vector2f) :=
  ⟨⟨by simp [delElastic, cfgX, pX, Vector2f.dyadic_product]; norm_num,
    by simp [delElastic, cfgX, pX, Vector2f.dyadic_product]; norm_num,
    by simp [delElastic, cfgX, pX, Vector2f.dyadic_product]; norm_num,
    by simp [delElastic, cfgX, pX, Vector2f.dyadic_product]; norm_num⟩,
   deltaForce_early_out cfgX pX _ _
     (by simp [delElastic, cfgX, pX, Vector2f.dyadic_product]; norm_num)
     (by simp [delElastic, cfgX, pX, Vector2f.dyadic_product]; norm_num)
     (by simp [delElastic, cfgX, pX, Vector2f.dyadic_product]; norm_num)
     (by simp [delElastic, cfgX, pX, Vector2f.dyadic_product]; norm_num)⟩

/-- Claim C1: for every particle state (with its documented cache invariant
`det_elastic = determinant(def_elastic)`), `cauchyStress` returns
`volume * (2*mu*(Fe - Re)*Fe^T + lambda*det(Fe)*(det(Fe)-1)*I)` with the
volumetric term a multiple of the identity. -/
theorem cauchyStress_closed_form (p : Particle)
    (h : p.det_elastic = p.def_elastic.determinant) :
    p.cauchyStress =
      p.volume • ((2 * p.mu) • ((p.def_elastic - p.polar_r) * p.def_elastic.transpose) +
        (p.lambda * p.def_elastic.determinant * (p.def_elastic.determinant - 1)) •
          (1 : Matrix2f)) := by
  apply Matrix2f.ext2 <;>
    simp only [Particle.cauchyStress, Matrix2f.diag_sum, Matrix2f.transpose,
      Matrix2f.determinant, h, Matrix2f.mul_def, Matrix2f.sub_def, Matrix2f.smul_def,
      Matrix2f.add_def, Matrix2f.one_def] <;>
    ring

/-- Witness for C1 at a concrete anisotropic state with consistent cached
determinant. -/
theorem cauchyStress_closed_form_witness :
    pW.det_elastic = pW.def_elastic.determinant ∧
    pW.cauchyStress =
      pW.volume • ((2 * pW.mu) • ((pW.def_elastic - pW.polar_r) * pW.def_elastic.transpose) +
        (pW.lambda * pW.def_elastic.determinant * (pW.def_elastic.determinant - 1)) •
          (1 : Matrix2f)) :=
  ⟨by simp [pW, pX, Matrix2f.determinant]; norm_num,
   cauchyStress_closed_form pW (by simp [pW, pX, Matrix2f.determinant]; norm_num)⟩

theorem clamp1_range (cfg : Config) (h : cfg.CRIT_COMPRESS ≤ cfg.CRIT_STRETCH) (s : ℚ) :
    cfg.CRIT_COMPRESS ≤ clamp1 cfg s ∧ clamp1 cfg s ≤ cfg.CRIT_STRETCH := by
  unfold clamp1
  split_ifs with ha hb
  · exact ⟨le_refl _, h⟩
  · exact ⟨h, le_refl _⟩
  · exact ⟨le_of_not_lt ha, le_of_not_lt hb⟩

theorem clamp1_low (cfg : Config) (s : ℚ) (h : s < cfg.CRIT_COMPRESS) :
    clamp1 cfg s = cfg.CRIT_COMPRESS := by
  unfold clamp1
  rw [if_pos h]

theorem clamp1_high (cfg : Config) (s : ℚ) (hcc : cfg.CRIT_COMPRESS ≤ 1)
    (hcs : 1 ≤ cfg.CRIT_STRETCH) (h : cfg.CRIT_STRETCH < s) :
    clamp1 cfg s = cfg.CRIT_STRETCH := by
  unfold clamp1
  rw [if_neg (not_lt.mpr (by linarith)), if_pos h]

/-- Trace of the clamped polar stretch `V * diag(e) * V^T`: for `V` with
orthonormal columns it is the sum of the two (clamped) singular values. -/
theorem polar_trace (V : Matrix2f) (e : Vector2f) (hv : V.transpose * V = 1) :
    (V.diag_product e * V.transpose).m00 + (V.diag_product e * V.transpose).m11 = e.x + e.y := by
  have h00 := congrArg Matrix2f.m00 hv
  have h11 := congrArg Matrix2f.m11 hv
  simp only [Matrix2f.mul_def, Matrix2f.transpose, Matrix2f.one_def] at h00 h11
  simp only [Matrix2f.mul_def, Matrix2f.diag_product, Matrix2f.transpose]
  linear_combination e.x * h00 + e.y * h11

/-- Claim C5: assuming `CRIT_COMPRESS <= 1 <= CRIT_STRETCH`, after every
`updateGradient` call each clamped singular value stored in `svd_e` lies in
`[CRIT_COMPRESS, CRIT_STRETCH]`, and out-of-range raw singular values are
set to the nearest bound. -/
theorem updateGradient_svd_e_clamped (cfg : Config) (svd : Matrix2f → SVDResult)
    (p : Particle) (h1 : cfg.CRIT_COMPRESS ≤ 1) (h2 : 1 ≤ cfg.CRIT_STRETCH) :
    (cfg.CRIT_COMPRESS ≤ (p.updateGradient cfg svd).svd_e.x ∧
      (p.updateGradient cfg svd).svd_e.x ≤ cfg.CRIT_STRETCH) ∧
    (cfg.CRIT_COMPRESS ≤ (p.updateGradient cfg svd).svd_e.y ∧
      (p.updateGradient cfg svd).svd_e.y ≤ cfg.CRIT_STRETCH) ∧
    ((svd (tentativeElastic cfg p)).e.x < cfg.CRIT_COMPRESS →
      (p.updateGradient cfg svd).svd_e.x = cfg.CRIT_COMPRESS) ∧
    (cfg.CRIT_STRETCH < (svd (tentativeElastic cfg p)).e.x →
      (p.updateGradient cfg svd).svd_e.x = cfg.CRIT_STRETCH) ∧
    ((svd (tentativeElastic cfg p)).e.y < cfg.CRIT_COMPRESS →
      (p.updateGradient cfg svd).svd_e.y = cfg.CRIT_COMPRESS) ∧
    (cfg.CRIT_STRETCH < (svd (tentativeElastic cfg p)).e.y →
      (p.updateGradient cfg svd).svd_e.y = cfg.CRIT_STRETCH) := by
  have hcs : cfg.CRIT_COMPRESS ≤ cfg.CRIT_STRETCH := le_trans h1 h2
  exact ⟨clamp1_range cfg hcs _, clamp1_range cfg hcs _,
    fun h => clamp1_low cfg _ h, fun h => clamp1_high cfg _ h1 h2 h,
    fun h => clamp1_low cfg _ h, fun h => clamp1_high cfg _ h1 h2 h⟩

/-- Witness for C5 at concrete configuration and state. -/
theorem updateGradient_svd_e_clamped_witness :
    (cfgX.CRIT_COMPRESS ≤ 1 ∧ 1 ≤ cfgX.CRIT_STRETCH) ∧
    ((cfgX.CRIT_COMPRESS ≤ (pX.updateGradient cfgX svdId).svd_e.x ∧
      (pX.updateGradient cfgX svdId).svd_e.x ≤ cfgX.CRIT_STRETCH) ∧
    (cfgX.CRIT_COMPRESS ≤ (pX.updateGradient cfgX svdId).svd_e.y ∧
      (pX.updateGradient cfgX svdId).svd_e.y ≤ cfgX.CRIT_STRETCH) ∧
    ((svdId (tentativeElastic cfgX pX)).e.x < cfgX.CRIT_COMPRESS →
      (pX.updateGradient cfgX svdId).svd_e.x = cfgX.CRIT_COMPRESS) ∧
    (cfgX.CRIT_STRETCH < (svdId (tentativeElastic cfgX pX)).e.x →
      (pX.updateGradient cfgX svdId).svd_e.x = cfgX.CRIT_STRETCH) ∧
    ((svdId (tentativeElastic cfgX pX)).e.y < cfgX.CRIT_COMPRESS →
      (pX.updateGradient cfgX svdId).svd_e.y = cfgX.CRIT_COMPRESS) ∧
    (cfgX.CRIT_STRETCH < (svdId (tentativeElastic cfgX pX)).e.y →
      (pX.updateGradient cfgX svdId).svd_e.y = cfgX.CRIT_STRETCH)) :=
  ⟨⟨by norm_num [cfgX], by norm_num [cfgX]⟩,
   updateGradient_svd_e_clamped cfgX svdId pX (by norm_num [cfgX]) (by norm_num [cfgX])⟩

/-- Claim C7: after every `updateGradient` call the hardened Lame parameters
equal `mu_s * exp(HARDENING * (1 - det_plastic))` and
`lambda_s * exp(HARDENING * (1 - det_plastic))`; consequently (for
`HARDENING >= 0`, nonnegative rest parameters, and the monotone external
exponential) they do not decrease when `det_plastic` decreases. -/
theorem updateGradient_hardening (cfg : Config) (svd : Matrix2f → SVDResult) (p q : Particle)
    (hmono : Monotone cfg.expf) (hH : 0 ≤ cfg.HARDENING)
    (hmu : 0 ≤ p.mu_s) (hla : 0 ≤ p.lambda_s)
    (hqmu : q.mu_s = p.mu_s) (hqla : q.lambda_s = p.lambda_s) :
    ((p.updateGradient cfg svd).mu =
        p.mu_s * cfg.expf (cfg.HARDENING * (1 - (p.updateGradient cfg svd).det_plastic)) ∧
      (p.updateGradient cfg svd).lambda =
        p.lambda_s * cfg.expf (cfg.HARDENING * (1 - (p.updateGradient cfg svd).det_plastic))) ∧
    ((q.updateGradient cfg svd).det_plastic ≤ (p.updateGradient cfg svd).det_plastic →
      (p.updateGradient cfg svd).mu ≤ (q.updateGradient cfg svd).mu ∧
      (p.updateGradient cfg svd).lambda ≤ (q.updateGradient cfg svd).lambda) := by
  refine ⟨⟨rfl, rfl⟩, fun hle => ?_⟩
  have harg : cfg.HARDENING * (1 - (p.updateGradient cfg svd).det_plastic) ≤
      cfg.HARDENING * (1 - (q.updateGradient cfg svd).det_plastic) :=
    mul_le_mul_of_nonneg_left (by linarith) hH
  have hexp := hmono harg
  constructor
  · show p.mu_s * cfg.expf (cfg.HARDENING * (1 - (p.updateGradient cfg svd).det_plastic)) ≤
      q.mu_s * cfg.expf (cfg.HARDENING * (1 - (q.updateGradient cfg svd).det_plastic))
    rw [hqmu]
    exact mul_le_mul_of_nonneg_left hexp hmu
  · show p.lambda_s * cfg.expf (cfg.HARDENING * (1 - (p.updateGradient cfg svd).det_plastic)) ≤
      q.lambda_s * cfg.expf (cfg.HARDENING * (1 - (q.updateGradient cfg svd).det_plastic))
    rw [hqla]
    exact mul_le_mul_of_nonneg_left hexp hla

/-- Witness for C7: `pY` is a compacted copy of `pX` (smaller plastic
determinant after the update), with the identity as monotone exponential. -/
theorem updateGradient_hardening_witness :
    (Monotone cfgX.expf ∧ 0 ≤ cfgX.HARDENING ∧ 0 ≤ pX.mu_s ∧ 0 ≤ pX.lambda_s ∧
      pY.mu_s = pX.mu_s ∧ pY.lambda_s = pX.lambda_s) ∧
    (((pX.updateGradient cfgX svdId).mu =
        pX.mu_s * cfgX.expf (cfgX.HARDENING * (1 - (pX.updateGradient cfgX svdId).det_plastic)) ∧
      (pX.updateGradient cfgX svdId).lambda =
        pX.lambda_s * cfgX.expf (cfgX.HARDENING * (1 - (pX.updateGradient cfgX svdId).det_plastic))) ∧
    ((pY.updateGradient cfgX svdId).det_plastic ≤ (pX.updateGradient cfgX svdId).det_plastic →
      (pX.updateGradient cfgX svdId).mu ≤ (pY.updateGradient cfgX svdId).mu ∧
      (pX.updateGradient cfgX svdId).lambda ≤ (pY.updateGradient cfgX svdId).lambda)) :=
  ⟨⟨fun _ _ h => h, by norm_num [cfgX], by norm_num [pX], by norm_num [pX], rfl, rfl⟩,
   updateGradient_hardening cfgX svdId pX pY (fun _ _ h => h) (by norm_num [cfgX])
     (by norm_num [pX]) (by norm_num [pX]) rfl rfl⟩

/-- Claim C10: with `CRIT_COMPRESS > 0` and an SVD primitive returning a
`V` factor with orthonormal columns, after `updateGradient` the trace
`polar_s[0][0] + polar_s[1][1]` equals the sum of the two clamped singular
values, is at least `2 * CRIT_COMPRESS`, and is nonzero, so the division by
it inside `deltaForce` never divides by zero. -/
theorem polar_s_trace_positive (cfg : Config) (svd : Matrix2f → SVDResult) (p : Particle)
    (hcc : 0 < cfg.CRIT_COMPRESS) (hccs : cfg.CRIT_COMPRESS ≤ cfg.CRIT_STRETCH)
    (hv : (svd (tentativeElastic cfg p)).v.transpose * (svd (tentativeElastic cfg p)).v = 1) :
    ((p.updateGradient cfg svd).polar_s.m00 + (p.updateGradient cfg svd).polar_s.m11 =
      (p.updateGradient cfg svd).svd_e.x + (p.updateGradient cfg svd).svd_e.y) ∧
    2 * cfg.CRIT_COMPRESS ≤
      (p.updateGradient cfg svd).polar_s.m00 + (p.updateGradient cfg svd).polar_s.m11 ∧
    (p.updateGradient cfg svd).polar_s.m00 + (p.updateGradient cfg svd).polar_s.m11 ≠ 0 := by
  have key : (p.updateGradient cfg svd).polar_s.m00 + (p.updateGradient cfg svd).polar_s.m11 =
      clamp1 cfg (svd (tentativeElastic cfg p)).e.x +
        clamp1 cfg (svd (tentativeElastic cfg p)).e.y :=
    polar_trace (svd (tentativeElastic cfg p)).v
      (clampE cfg (svd (tentativeElastic cfg p)).e) hv
  have hx := (clamp1_range cfg hccs (svd (tentativeElastic cfg p)).e.x).1
  have hy := (clamp1_range cfg hccs (svd (tentativeElastic cfg p)).e.y).1
  refine ⟨key, ?_, ?_⟩
  · rw [key]
    linarith
  · rw [key]
    have hpos : 0 < clamp1 cfg (svd (tentativeElastic cfg p)).e.x +
        clamp1 cfg (svd (tentativeElastic cfg p)).e.y := by linarith
    exact ne_of_gt hpos

/-- Witness for C10 at concrete configuration and state. -/
theorem polar_s_trace_positive_witness :
    (0 < cfgX.CRIT_COMPRESS ∧ cfgX.CRIT_COMPRESS ≤ cfgX.CRIT_STRETCH ∧
      (svdId (tentativeElastic cfgX pX)).v.transpose * (svdId (tentativeElastic cfgX pX)).v = 1) ∧
    (((pX.updateGradient cfgX svdId).polar_s.m00 + (pX.updateGradient cfgX svdId).polar_s.m11 =
      (pX.updateGradient cfgX svdId).svd_e.x + (pX.updateGradient cfgX svdId).svd_e.y) ∧
    2 * cfgX.CRIT_COMPRESS ≤
      (pX.updateGradient cfgX svdId).polar_s.m00 + (pX.updateGradient cfgX svdId).polar_s.m11 ∧
    (pX.updateGradient cfgX svdId).polar_s.m00 + (pX.updateGradient cfgX svdId).polar_s.m11 ≠ 0) :=
  ⟨⟨by norm_num [cfgX], by norm_num [cfgX], by simp [svdId, Matrix2f.transpose]⟩,
   polar_s_trace_positive cfgX svdId pX (by norm_num [cfgX]) (by norm_num [cfgX])
     (by simp [svdId, Matrix2f.transpose])⟩

/-- Claim C3: after `updateGradient`, with orthogonal SVD factors and
nonzero clamped singular values, the reconstructed product
`def_elastic * def_plastic` equals the `f_all` computed earlier in that same
call, exactly. -/
theorem updateGradient_reconstructs_total (cfg : Config) (svd : Matrix2f → SVDResult) (p : Particle)
    (hv : (svd (tentativeElastic cfg p)).v.transpose * (svd (tentativeElastic cfg p)).v = 1)
    (hw : (svd (tentativeElastic cfg p)).w * (svd (tentativeElastic cfg p)).w.transpose = 1)
    (hx : clamp1 cfg (svd (tentativeElastic cfg p)).e.x ≠ 0)
    (hy : clamp1 cfg (svd (tentativeElastic cfg p)).e.y ≠ 0) :
    (p.updateGradient cfg svd).def_elastic * (p.updateGradient cfg svd).def_plastic =
      fAll cfg p :=
  reconstruct_sandwich (svd (tentativeElastic cfg p)).w (svd (tentativeElastic cfg p)).v
    (fAll cfg p) (clampE cfg (svd (tentativeElastic cfg p)).e) hv hw hx hy

/-- Witness for C3 at concrete configuration and state. -/
theorem updateGradient_reconstructs_total_witness :
    ((svdId (tentativeElastic cfgX pX)).v.transpose * (svdId (tentativeElastic cfgX pX)).v = 1 ∧
      (svdId (tentativeElastic cfgX pX)).w * (svdId (tentativeElastic cfgX pX)).w.transpose = 1 ∧
      clamp1 cfgX (svdId (tentativeElastic cfgX pX)).e.x ≠ 0 ∧
      clamp1 cfgX (svdId (tentativeElastic cfgX pX)).e.y ≠ 0) ∧
    (pX.updateGradient cfgX svdId).def_elastic * (pX.updateGradient cfgX svdId).def_plastic =
      fAll cfgX pX :=
  ⟨⟨by simp [svdId, Matrix2f.transpose], by simp [svdId, Matrix2f.transpose],
    by norm_num [clamp1, svdId, cfgX], by norm_num [clamp1, svdId, cfgX]⟩,
   updateGradient_reconstructs_total cfgX svdId pX
     (by simp [svdId, Matrix2f.transpose]) (by simp [svdId, Matrix2f.transpose])
     (by norm_num [clamp1, svdId, cfgX]) (by norm_num [clamp1, svdId, cfgX])⟩

/-- Claim C2 (amended): with the `MATRIX_EPSILON` early-out removed (the
`deltaForceCore` branch of the computation), `deltaForce` is exactly linear
in `u` for fixed state and weight gradient; the full function with the
early-out is not linear (see the counterexample). -/
theorem deltaForceCore_linear (cfg : Config) (p : Particle) (a b : ℚ) (u1 u2 w : Vector2f) :
    p.deltaForceCore cfg (a • u1 + b • u2) w =
      a • p.deltaForceCore cfg u1 w + b • p.deltaForceCore cfg u2 w := by
  apply Vector2f.vext <;>
    simp only [Particle.deltaForceCore, delElastic, Vector2f.dyadic_product, Matrix2f.mulVec,
      Matrix2f.cofactor, Matrix2f.frobeniusInnerProduct, Matrix2f.transpose, Matrix2f.mul_def,
      Matrix2f.sub_def, Matrix2f.add_def, Matrix2f.smul_def, Vector2f.vadd_def, Vector2f.vsmul_def,
      division_def] <;>
    ring

/-- Counterexample to C2 as stated: at a concrete state, negating `u`
switches the `MATRIX_EPSILON` early-out branch, so `deltaForce` is not
linear in `u` (take `a = -1`, `b = 0`). -/
theorem deltaForce_not_linear :
    pX.deltaForce cfgX ((-1 : ℚ) • (⟨1, 0⟩ : Vector2f) + (0 : ℚ) • (⟨0, 1⟩ : Vector2f)) ⟨1, 0⟩ ≠
      (-1 : ℚ) • pX.deltaForce cfgX ⟨1, 0⟩ ⟨1, 0⟩ +
        (0 : ℚ) • pX.deltaForce cfgX ⟨0, 1⟩ ⟨1, 0⟩ := by
  have h1 : pX.deltaForce cfgX ((-1 : ℚ) • (⟨1, 0⟩ : Vector2f) + (0 : ℚ) • (⟨0, 1⟩ : Vector2f))
      ⟨1, 0⟩ = ⟨0, 0⟩ := by
    norm_num [Particle.deltaForce, delElastic, cfgX, pX, Vector2f.dyadic_product]
  have h2 : pX.deltaForce cfgX ⟨1, 0⟩ ⟨1, 0⟩ = ⟨3, 0⟩ := by
    norm_num [Particle.deltaForce, Particle.deltaForceCore, delElastic, cfgX, pX,
      Vector2f.dyadic_product, Matrix2f.mulVec, Matrix2f.cofactor,
      Matrix2f.frobeniusInnerProduct, Matrix2f.transpose]
  have h3 : pX.deltaForce cfgX ⟨0, 1⟩ ⟨1, 0⟩ = ⟨0, 3⟩ := by
    norm_num [Particle.deltaForce, Particle.deltaForceCore, delElastic, cfgX, pX,
      Vector2f.dyadic_product, Matrix2f.mulVec, Matrix2f.cofactor,
      Matrix2f.frobeniusInnerProduct, Matrix2f.transpose]
  rw [h1, h2, h3]
  intro hcontra
  have := congrArg Vector2f.x hcontra
  norm_num at this

end Snow
